import Mathlib

/-!
Shallow embedding of `sample-data/generate_logs.py` (a Kafka sample-log
generator) and proofs of its specified properties.

Modelling conventions:
* The process-wide random source (`random.random`, `random.randint`,
  `random.choice`, `random.choices`, `random.randbytes`, `random.uniform`) is
  modelled as an explicit tape `List ℚ` of raw draws, consumed left to right.
  Each primitive consumes one tape cell and interprets it into its codomain
  (`Int.fract` for a float in `[0,1)`, `⌊q⌋ % n` for a uniform choice among
  `n` alternatives), so every value the Python primitive can return is
  reachable and only those values are reachable.
* Python floats are modelled as exact rationals `ℚ`.
* A Python `dict` built by insertion (the log record) is modelled as an
  insertion-ordered association list `List (String × JValue)`; `json.dumps`
  serializes a dict in exactly that order, so equality of these lists models
  byte-identity of the serialized records.
* The wall clock (`datetime.now(timezone.utc).isoformat().replace("+00:00","Z")`)
  is an environment input, passed as the `now : String` parameter.
* A Python exception (exhausted tape, `random.choice` on an empty list,
  `random.choices` on an empty/non-positive-total weight mapping) is `none`.
-/

/-- A JSON-serializable value as stored in the generated log dict.  The
generator never stores `None`, so there is no null constructor. -/
inductive JValue where
  | str (s : String)
  | int (n : ℤ)
  | rat (q : ℚ)
deriving DecidableEq, Repr

/-- A log record: a Python dict in insertion order. -/
abbrev Log := List (String × JValue)

/-- A tape-consuming random computation: takes the remaining tape, returns the
result and the rest of the tape, or `none` on a Python exception. -/
abbrev Gen (α : Type) := List ℚ → Option (α × List ℚ)

/-- `random.random()`: consumes one raw draw `q` and returns a float in
`[0, 1)`, modelled as the fractional part of `q`. -/
def random_random : Gen ℚ := fun t =>
  match t with
  | [] => none
  | q :: rest => some (Int.fract q, rest)

/-- `random.randint(a, b)`: a uniform integer in `[a, b]`, modelled as
`a + ⌊q⌋ % (b - a + 1)`. -/
def randint (a b : ℤ) : Gen ℤ := fun t =>
  match t with
  | [] => none
  | q :: rest => some (a + ⌊q⌋ % (b - a + 1), rest)

/-- `random.choice(lst)`: a uniform element of `lst`, modelled by indexing
with `⌊q⌋ % lst.length`; raises `IndexError` (`none`) on an empty list. -/
def random_choice {α : Type} : List α → Gen α := fun lst t =>
  match t with
  | [] => none
  | q :: rest =>
    match lst with
    | [] => none
    | x :: xs => some ((x :: xs).getD (⌊q⌋.toNat % (xs.length + 1)) x, rest)

/-- `random.uniform(a, b) = a + (b - a) * random.random()`. -/
def random_uniform (a b : ℚ) : Gen ℚ := fun t =>
  match t with
  | [] => none
  | q :: rest => some (a + (b - a) * Int.fract q, rest)

/-- Lowercase hexadecimal digit of `n % 16` (`Nat.digitChar` is lowercase). -/
def hexChar (n : ℕ) : Char := Nat.digitChar (n % 16)

/-- The two lowercase hex digits of one byte, as produced by `bytes.hex()`. -/
def byteHex (b : ℕ) : String := String.mk [hexChar (b / 16), hexChar b]

/-- `random.randbytes(4).hex()`: four uniform bytes rendered as 8 lowercase
hex characters.  One raw draw supplies the 32 random bits. -/
def randbytes4_hex : Gen String := fun t =>
  match t with
  | [] => none
  | q :: rest =>
    let n := ⌊q⌋.toNat % 2 ^ 32
    some (byteHex (n / 2 ^ 24 % 256) ++ byteHex (n / 2 ^ 16 % 256) ++
          byteHex (n / 2 ^ 8 % 256) ++ byteHex (n % 256), rest)

/-- Running totals of a weight list, as `itertools.accumulate` produces them
inside `random.choices`. -/
def cumWeights : List ℚ → List ℚ
  | [] => []
  | w :: ws => w :: (cumWeights ws).map (w + ·)

/-- `bisect.bisect_right(xs, u, 0, hi)` for the sorted cumulative-weight lists
arising here: the number of entries among the first `hi` that are `≤ u`. -/
def bisectRight (xs : List ℚ) (u : ℚ) (hi : ℕ) : ℕ :=
  ((xs.take hi).filter (fun x => decide (x ≤ u))).length

/--
`weighted_choice(choices)` from `generate_logs.py`:

    items = list(choices.keys())
    weights = list(choices.values())
    return random.choices(items, weights=weights)[0]

following CPython's `random.choices`: it accumulates the weights, raises
(`none`) if the mapping is empty or the total weight is not positive, and
otherwise selects `items[bisect(cum_weights, random() * total, 0, n - 1)]`.
The error checks happen before `random()` is called, so no draw is consumed
on the error paths.  The dict argument is modelled as an insertion-ordered
key/weight list.
-/
def weighted_choice (choices : List (String × ℚ)) : Gen String := fun t =>
  let items := choices.map Prod.fst
  let cw := cumWeights (choices.map Prod.snd)
  match cw.getLast? with
  | none => none
  | some total =>
    if total ≤ 0 then none
    else
      match t with
      | [] => none
      | q :: rest =>
        some (items.getD (bisectRight cw (Int.fract q * total) (items.length - 1)) "", rest)

/-- `SERVICES` from `generate_logs.py`. -/
def SERVICES : List String :=
  ["web-api", "auth-service", "db-service", "payment-service",
   "inventory-service", "notification-service", "search-service",
   "analytics-service"]

/-- `HOSTS` from `generate_logs.py`, the dict modelled as a lookup function
(`HOSTS[service]`); keys outside the dict would raise, giving the empty
list here, on which `random.choice` fails just as `KeyError` would. -/
def HOSTS : String → List String
  | "web-api" => ["api-server-01", "api-server-02", "api-server-03"]
  | "auth-service" => ["auth-server-01", "auth-server-02"]
  | "db-service" => ["db-server-01"]
  | "payment-service" => ["payment-server-01", "payment-server-02"]
  | "inventory-service" => ["inventory-server-01", "inventory-server-02"]
  | "notification-service" => ["notif-server-01"]
  | "search-service" => ["search-server-01", "search-server-02"]
  | "analytics-service" => ["analytics-server-01"]
  | _ => []

/-- `LOG_LEVELS` from `generate_logs.py`: the weighted level distribution,
in dict insertion order. -/
def LOG_LEVELS : List (String × ℚ) :=
  [("INFO", 0.70), ("WARN", 0.20), ("ERROR", 0.10)]

/-- `INFO_MESSAGES` from `generate_logs.py` (15 entries). -/
def INFO_MESSAGES : List String :=
  ["Request processed successfully",
   "User authentication successful",
   "GET /api/v1/products",
   "POST /api/v1/orders",
   "PUT /api/v1/cart",
   "DELETE /api/v1/cart/items",
   "GET /api/v1/users/profile",
   "Search query executed",
   "Payment processed",
   "Email notification sent",
   "SMS notification sent",
   "Daily report generated",
   "Cache refreshed successfully",
   "Session created",
   "File uploaded successfully"]

/-- `WARN_MESSAGES` from `generate_logs.py` (8 entries). -/
def WARN_MESSAGES : List String :=
  ["Query execution took longer than expected",
   "Low stock alert for product SKU-12345",
   "Multiple failed login attempts detected",
   "Connection pool nearly exhausted",
   "Payment declined",
   "Rate limit approaching threshold",
   "Memory usage above 80%",
   "Disk space running low"]

/-- `ERROR_MESSAGES` from `generate_logs.py`: 8 `(message, error_type)`
pairs. -/
def ERROR_MESSAGES : List (String × String) :=
  [("Database connection timeout", "ConnectionTimeout"),
   ("Payment gateway timeout", "GatewayTimeout"),
   ("Deadlock detected in transaction", "DeadlockDetected"),
   ("Failed to update inventory count", "ConcurrencyException"),
   ("Internal server error", "NullPointerException"),
   ("Service unavailable", "ServiceUnavailable"),
   ("Authentication failed", "AuthenticationError"),
   ("Invalid input data", "ValidationError")]

/-- `STATUS_CODES` from `generate_logs.py`, the dict modelled as a lookup
function. -/
def STATUS_CODES : String → List ℤ
  | "INFO" => [200, 201, 204]
  | "WARN" => [200, 402]
  | "ERROR" => [500, 503, 504, 409]
  | _ => []

/-- Python's `round(x, 2)`: the nearest multiple of `1/100` (float rounding
modelled exactly over `ℚ`). -/
def round2 (x : ℚ) : ℚ := (round (100 * x) : ℤ) / 100

/-- The base log dict built by `generate_log_event` before the level branch:

    log = {"timestamp": ..., "level": level, "service": service,
           "host": host, "request_id": f"req-{random.randbytes(4).hex()}"}
-/
def baseLog (now level service host hex : String) : Log :=
  [("timestamp", .str now), ("level", .str level), ("service", .str service),
   ("host", .str host), ("request_id", .str ("req-" ++ hex))]

/-- INFO branch, optional `user_id` (also used at WARN with `p = 0.4`):

    if random.random() < p:
        log["user_id"] = f"user-{random.randint(10000, 99999)}"

The draw for the coin is consumed whether or not it succeeds. -/
def maybe_user_id (p : ℚ) (log : Log) : Gen Log := fun t =>
  match random_random t with
  | none => none
  | some (r, t1) =>
    if r < p then
      match randint 10000 99999 t1 with
      | none => none
      | some (uid, t2) => some (log ++ [("user_id", .str ("user-" ++ toString uid))], t2)
    else some (log, t1)

/-- INFO branch, optional `ip_address`:

    if random.random() < 0.5 and service == "web-api":
        log["ip_address"] = f"192.168.{random.randint(1,255)}.{random.randint(1,255)}"

`random.random()` is the left operand of `and`, so its draw is always
consumed; the two octet draws only when the whole condition holds. -/
def maybe_ip_address (service : String) (log : Log) : Gen Log := fun t =>
  match random_random t with
  | none => none
  | some (r, t1) =>
    if r < 0.5 ∧ service = "web-api" then
      match randint 1 255 t1 with
      | none => none
      | some (o3, t2) =>
        match randint 1 255 t2 with
        | none => none
        | some (o4, t3) =>
          some (log ++ [("ip_address",
            .str ("192.168." ++ toString o3 ++ "." ++ toString o4))], t3)
    else some (log, t1)

/-- INFO branch, optional `amount`:

    if random.random() < 0.3 and service == "payment-service":
        log["amount"] = round(random.uniform(9.99, 999.99), 2)
-/
def maybe_amount (service : String) (log : Log) : Gen Log := fun t =>
  match random_random t with
  | none => none
  | some (r, t1) =>
    if r < 0.3 ∧ service = "payment-service" then
      match random_uniform 9.99 999.99 t1 with
      | none => none
      | some (x, t2) => some (log ++ [("amount", .rat (round2 x))], t2)
    else some (log, t1)

/-- WARN branch, optional `duration_ms`:

    if random.random() < 0.5:
        log["duration_ms"] = random.randint(500, 2000)
-/
def maybe_duration (log : Log) : Gen Log := fun t =>
  match random_random t with
  | none => none
  | some (r, t1) =>
    if r < 0.5 then
      match randint 500 2000 t1 with
      | none => none
      | some (d, t2) => some (log ++ [("duration_ms", .int d)], t2)
    else some (log, t1)

/-- The `level == "INFO"` branch of `generate_log_event`. -/
def info_branch (service : String) (log : Log) : Gen Log := fun t =>
  match random_choice INFO_MESSAGES t with
  | none => none
  | some (msg, t1) =>
    match randint 10 500 t1 with
    | none => none
    | some (dur, t2) =>
      match random_choice (STATUS_CODES "INFO") t2 with
      | none => none
      | some (code, t3) =>
        match maybe_user_id 0.7 (log ++ [("message", .str msg),
            ("duration_ms", .int dur), ("status_code", .int code)]) t3 with
        | none => none
        | some (log1, t4) =>
          match maybe_ip_address service log1 t4 with
          | none => none
          | some (log2, t5) => maybe_amount service log2 t5

/-- The `level == "WARN"` branch of `generate_log_event`. -/
def warn_branch (log : Log) : Gen Log := fun t =>
  match random_choice WARN_MESSAGES t with
  | none => none
  | some (msg, t1) =>
    match random_choice (STATUS_CODES "WARN") t1 with
    | none => none
    | some (code, t2) =>
      match maybe_duration (log ++ [("message", .str msg),
          ("status_code", .int code)]) t2 with
      | none => none
      | some (log1, t3) => maybe_user_id 0.4 log1 t3

/-- The `else` (ERROR) branch of `generate_log_event`. -/
def error_branch (log : Log) : Gen Log := fun t =>
  match random_choice ERROR_MESSAGES t with
  | none => none
  | some ((msg, etype), t1) =>
    match random_choice (STATUS_CODES "ERROR") t1 with
    | none => none
    | some (code, t2) =>
      match randint 1000 10000 t2 with
      | none => none
      | some (dur, t3) =>
        some (log ++ [("message", .str msg), ("error", .str etype),
          ("status_code", .int code), ("duration_ms", .int dur)], t3)

/-- `generate_log_event()` from `generate_logs.py`.  `now` is the formatted
wall-clock timestamp the function reads from the environment. -/
def generate_log_event (now : String) : Gen Log := fun t =>
  match weighted_choice LOG_LEVELS t with
  | none => none
  | some (level, t1) =>
    match random_choice SERVICES t1 with
    | none => none
    | some (service, t2) =>
      match random_choice (HOSTS service) t2 with
      | none => none
      | some (host, t3) =>
        match randbytes4_hex t3 with
        | none => none
        | some (hex, t4) =>
          if level = "INFO" then
            info_branch service (baseLog now level service host hex) t4
          else if level = "WARN" then
            warn_branch (baseLog now level service host hex) t4
          else error_branch (baseLog now level service host hex) t4

/-- The sequence of `(key, value)` pairs handed to `producer.send(topic,
key=key, value=log)` by `produce_logs`; iteration `i` reads the wall clock
as `nows i`:

    for i in range(count):
        log = generate_log_event()
        key = log["service"]
        future = producer.send(topic, key=key, value=log)
-/
def produce_logs (nows : ℕ → String) : ℕ → Gen (List (String × Log))
  | 0 => fun t => some ([], t)
  | n + 1 => fun t =>
    match generate_log_event (nows 0) t with
    | none => none
    | some (log, t1) =>
      match log.lookup "service" with
      | some (.str key) =>
        match produce_logs (fun i => nows (i + 1)) n t1 with
        | none => none
        | some (sends, t2) => some ((key, log) :: sends, t2)
      | _ => none

/-- A log record with its `timestamp` entries removed; two serialized records
agree outside the timestamp field exactly when these agree. -/
def withoutTimestamp (log : Log) : Log :=
  log.filter (fun p => p.1 ≠ "timestamp")

/-- The lowercase hexadecimal digits. -/
def hexDigitChars : List Char := "0123456789abcdef".data

/-- The groups of characters between dots, used to read off the octets of a
dotted address. -/
def splitOnDot : List Char → List (List Char)
  | [] => [[]]
  | c :: r =>
    if c = '.' then [] :: splitOnDot r
    else
      match splitOnDot r with
      | [] => [[c]]
      | g :: gs => (c :: g) :: gs

/-- Decimal value of a digit group, for reading octets back as integers. -/
def parseDecimal (cs : List Char) : ℕ :=
  cs.foldl (fun n c => 10 * n + (c.toNat - 48)) 0

/-- The octets of a dotted address string, as numbers. -/
def octetsOf (s : String) : List ℕ :=
  (splitOnDot s.data).map parseDecimal

/-! ### Shapes of the optional-field extensions -/

/-- Shape of what `maybe_user_id` appends to the record. -/
def userIdExt (ext : Log) : Prop :=
  ext = [] ∨ ∃ n : ℤ, 10000 ≤ n ∧ n ≤ 99999 ∧
    ext = [("user_id", .str ("user-" ++ toString n))]

/-- Shape of what `maybe_ip_address` appends to the record. -/
def ipExt (service : String) (ext : Log) : Prop :=
  ext = [] ∨ (service = "web-api" ∧ ∃ a b : ℤ,
    1 ≤ a ∧ a ≤ 255 ∧ 1 ≤ b ∧ b ≤ 255 ∧
    ext = [("ip_address", .str ("192.168." ++ toString a ++ "." ++ toString b))])

/-- Shape of what `maybe_amount` appends to the record. -/
def amountExt (service : String) (ext : Log) : Prop :=
  ext = [] ∨ (service = "payment-service" ∧ ∃ x : ℚ,
    9.99 ≤ x ∧ x < 999.99 ∧ ext = [("amount", .rat (round2 x))])

/-- Shape of what `maybe_duration` appends to the record. -/
def durationExt (ext : Log) : Prop :=
  ext = [] ∨ ∃ d : ℤ, 500 ≤ d ∧ d ≤ 2000 ∧ ext = [("duration_ms", .int d)]


/-! ### Conclusion predicates for the specified properties -/

/-- The seven base fields are present (the generator stores no null values,
so presence is non-nullness). -/
def baseFieldsPresent (log : Log) : Prop :=
  (log.lookup "timestamp").isSome ∧ (log.lookup "level").isSome ∧
  (log.lookup "service").isSome ∧ (log.lookup "host").isSome ∧
  (log.lookup "request_id").isSome ∧ (log.lookup "message").isSome ∧
  (log.lookup "status_code").isSome

/-- What actually holds of a record carrying `ip_address`: the level is INFO,
the service is `web-api`, and the address is `192.168.a.b` with only the last
two octets drawn from `[1, 255]`. -/
def ipAddressOk (log : Log) (s : String) : Prop :=
  log.lookup "level" = some (.str "INFO") ∧
  log.lookup "service" = some (.str "web-api") ∧
  ∃ a b : ℤ, 1 ≤ a ∧ a ≤ 255 ∧ 1 ≤ b ∧ b ≤ 255 ∧
    s = "192.168." ++ toString a ++ "." ++ toString b

/-- ERROR records carry `message`/`error` as a pair from the catalog (the
pairing is functional in the message) and none of the optional INFO/WARN
fields. -/
def errorFieldsOk (log : Log) : Prop :=
  ∃ msg etype, log.lookup "message" = some (.str msg) ∧
    log.lookup "error" = some (.str etype) ∧ (msg, etype) ∈ ERROR_MESSAGES ∧
    (∀ e, (msg, e) ∈ ERROR_MESSAGES → e = etype) ∧
    log.lookup "user_id" = none ∧ log.lookup "ip_address" = none ∧
    log.lookup "amount" = none

/-- The host field belongs to the host list of the record's own service. -/
def hostMatchesService (log : Log) : Prop :=
  ∃ service host, log.lookup "service" = some (.str service) ∧
    log.lookup "host" = some (.str host) ∧ host ∈ HOSTS service

/-- The request id is `req-` followed by exactly 8 lowercase hex digits. -/
def requestIdOk (log : Log) : Prop :=
  ∃ hex : String, log.lookup "request_id" = some (.str ("req-" ++ hex)) ∧
    hex.length = 8 ∧ ∀ c ∈ hex.data, c ∈ hexDigitChars

/-- Status codes and durations respect the level-specific catalogs and
ranges. -/
def statusDurationOk (log : Log) : Prop :=
  (log.lookup "level" = some (.str "INFO") →
    ∃ code dur, log.lookup "status_code" = some (.int code) ∧
      code ∈ ([200, 201, 204] : List ℤ) ∧
      log.lookup "duration_ms" = some (.int dur) ∧ 10 ≤ dur ∧ dur ≤ 500) ∧
  (log.lookup "level" = some (.str "WARN") →
    ∃ code, log.lookup "status_code" = some (.int code) ∧
      code ∈ ([200, 402] : List ℤ) ∧
      ∀ dur : ℤ, log.lookup "duration_ms" = some (.int dur) →
        500 ≤ dur ∧ dur ≤ 2000) ∧
  (log.lookup "level" = some (.str "ERROR") →
    ∃ code dur, log.lookup "status_code" = some (.int code) ∧
      code ∈ ([500, 503, 504, 409] : List ℤ) ∧
      log.lookup "duration_ms" = some (.int dur) ∧ 1000 ≤ dur ∧ dur ≤ 10000)

/-- An `amount` value is a rational in `[9.99, 999.99]` with at most two
decimal places. -/
def amountOk (v : JValue) : Prop :=
  ∃ q : ℚ, v = .rat q ∧ 9.99 ≤ q ∧ q ≤ 999.99 ∧ ∃ n : ℤ, q = n / 100

/-! ### Concrete runs used as witnesses -/

/-- A tape of 13 zero draws: enough for an INFO `web-api` event carrying
`user_id` and `ip_address`. -/
def tapeInfo : List ℚ := List.replicate 13 0

/-- The record generated from `tapeInfo` at clock reading `"T"`. -/
def logInfo : Log :=
  [("timestamp", .str "T"), ("level", .str "INFO"),
   ("service", .str "web-api"), ("host", .str "api-server-01"),
   ("request_id", .str "req-00000000"),
   ("message", .str "Request processed successfully"),
   ("duration_ms", .int 10), ("status_code", .int 200),
   ("user_id", .str "user-10000"), ("ip_address", .str "192.168.1.1")]

/-- A tape whose first draw selects the ERROR level. -/
def tapeError : List ℚ := (95 / 100 : ℚ) :: List.replicate 6 0

/-- The record generated from `tapeError` at clock reading `"T"`. -/
def logError : Log :=
  [("timestamp", .str "T"), ("level", .str "ERROR"),
   ("service", .str "web-api"), ("host", .str "api-server-01"),
   ("request_id", .str "req-00000000"),
   ("message", .str "Database connection timeout"),
   ("error", .str "ConnectionTimeout"),
   ("status_code", .int 500), ("duration_ms", .int 1000)]

/-- A tape selecting an INFO `payment-service` event carrying `amount`. -/
def tapePay : List ℚ := [0, 3, 0, 0, 0, 0, 0, 0, 0, 0, 0, (1 / 2 : ℚ)]

/-- The record generated from `tapePay` at clock reading `"T"`. -/
def logPay : Log :=
  [("timestamp", .str "T"), ("level", .str "INFO"),
   ("service", .str "payment-service"), ("host", .str "payment-server-01"),
   ("request_id", .str "req-00000000"),
   ("message", .str "Request processed successfully"),
   ("duration_ms", .int 10), ("status_code", .int 200),
   ("user_id", .str "user-10000"), ("amount", .rat (50499 / 100))]

/-! ### Facts about the random primitives -/

/-- Indexing with a default that is itself a member stays inside the list. -/
theorem getD_mem {α : Type} {l : List α} {d : α} (hd : d ∈ l) (i : ℕ) :
    l.getD i d ∈ l := by
  rcases Nat.lt_or_ge i l.length with h | h
  · rw [List.getD_eq_getElem?_getD, List.getElem?_eq_getElem h]
    exact List.getElem_mem h
  · rw [List.getD_eq_getElem?_getD, List.getElem?_eq_none h]
    exact hd

/-- `random.choice` only returns elements of its argument. -/
theorem random_choice_eq_some {α : Type} {lst : List α} {t rest : List ℚ} {x : α}
    (h : random_choice lst t = some (x, rest)) : x ∈ lst := by
  cases t with
  | nil => simp [random_choice] at h
  | cons q r =>
    cases lst with
    | nil => simp [random_choice] at h
    | cons y ys =>
      simp only [random_choice, Option.some.injEq, Prod.mk.injEq] at h
      exact h.1 ▸ getD_mem (List.mem_cons_self y ys) _

/-- `random.randint(a, b)` stays in `[a, b]` when `a ≤ b`. -/
theorem randint_eq_some {a b x : ℤ} {t rest : List ℚ} (hab : a ≤ b)
    (h : randint a b t = some (x, rest)) : a ≤ x ∧ x ≤ b := by
  cases t with
  | nil => simp [randint] at h
  | cons q r =>
    simp only [randint, Option.some.injEq, Prod.mk.injEq] at h
    have h0 : 0 ≤ ⌊q⌋ % (b - a + 1) := Int.emod_nonneg _ (by omega)
    have h1 : ⌊q⌋ % (b - a + 1) < b - a + 1 := Int.emod_lt_of_pos _ (by omega)
    omega

/-- `random.random()` lands in `[0, 1)`. -/
theorem random_random_eq_some {t rest : List ℚ} {r : ℚ}
    (h : random_random t = some (r, rest)) : 0 ≤ r ∧ r < 1 := by
  cases t with
  | nil => simp [random_random] at h
  | cons q tr =>
    simp only [random_random, Option.some.injEq, Prod.mk.injEq] at h
    exact h.1 ▸ ⟨Int.fract_nonneg q, Int.fract_lt_one q⟩

/-- `random.uniform(a, b)` lands in `[a, b)` when `a < b`. -/
theorem random_uniform_eq_some {a b x : ℚ} {t rest : List ℚ} (hab : a < b)
    (h : random_uniform a b t = some (x, rest)) : a ≤ x ∧ x < b := by
  cases t with
  | nil => simp [random_uniform] at h
  | cons q r =>
    simp only [random_uniform, Option.some.injEq, Prod.mk.injEq] at h
    have h0 : 0 ≤ Int.fract q := Int.fract_nonneg q
    have h1 : Int.fract q < 1 := Int.fract_lt_one q
    have hba : 0 < b - a := by linarith
    constructor
    · nlinarith [h.1]
    · nlinarith [h.1]

/-- Every lowercase hex digit produced by `hexChar`. -/
theorem hexChar_mem (n : ℕ) : hexChar n ∈ hexDigitChars := by
  have hb : ∀ m, m < 16 → Nat.digitChar m ∈ hexDigitChars := by decide
  exact hb (n % 16) (Nat.mod_lt _ (by norm_num))

/-- The hex token of `random.randbytes(4).hex()` has 8 characters, all
lowercase hex digits. -/
theorem randbytes4_hex_eq_some {t rest : List ℚ} {s : String}
    (h : randbytes4_hex t = some (s, rest)) :
    s.length = 8 ∧ ∀ c ∈ s.data, c ∈ hexDigitChars := by
  cases t with
  | nil => simp [randbytes4_hex] at h
  | cons q r =>
    simp only [randbytes4_hex, Option.some.injEq, Prod.mk.injEq] at h
    obtain ⟨hs, -⟩ := h
    subst hs
    refine ⟨rfl, ?_⟩
    intro c hc
    simp only [byteHex, String.data_append] at hc
    simp only [List.cons_append, List.nil_append, List.mem_cons,
      List.not_mem_nil, or_false] at hc
    rcases hc with rfl | rfl | rfl | rfl | rfl | rfl | rfl | rfl <;>
      exact hexChar_mem _

/-- `cumWeights` preserves length. -/
theorem cumWeights_length (ws : List ℚ) : (cumWeights ws).length = ws.length := by
  induction ws with
  | nil => rfl
  | cons w ws ih => simp [cumWeights, ih]

/-- The last cumulative weight is the total weight. -/
theorem cumWeights_getLast? {ws : List ℚ} (h : ws ≠ []) :
    (cumWeights ws).getLast? = some ws.sum := by
  induction ws with
  | nil => exact absurd rfl h
  | cons w ws ih =>
    cases ws with
    | nil => simp [cumWeights]
    | cons w2 ws2 =>
      have hrec := ih (by simp)
      have hcw : cumWeights (w2 :: ws2) = w2 :: (cumWeights ws2).map (w2 + ·) := rfl
      calc (cumWeights (w :: w2 :: ws2)).getLast?
          = (w :: (cumWeights (w2 :: ws2)).map (w + ·)).getLast? := rfl
        _ = ((cumWeights (w2 :: ws2)).map (w + ·)).getLast? := by
              rw [hcw]; exact List.getLast?_cons_cons
        _ = ((cumWeights (w2 :: ws2)).getLast?).map (w + ·) := by
              rw [List.getLast?_map]
        _ = some (w + (w2 :: ws2).sum) := by rw [hrec]; rfl
        _ = some ((w :: w2 :: ws2).sum) := by simp [List.sum_cons, add_assoc]

/-- The bisection index never exceeds `hi`. -/
theorem bisectRight_le (xs : List ℚ) (u : ℚ) (hi : ℕ) : bisectRight xs u hi ≤ hi :=
  le_trans (List.length_filter_le _ _) (by simp [List.length_take])

/-- Inversion for `weighted_choice`: a successful selection is one of the
mapping's keys. -/
theorem weighted_choice_eq_some {choices : List (String × ℚ)} {t rest : List ℚ}
    {k : String} (h : weighted_choice choices t = some (k, rest)) :
    k ∈ choices.map Prod.fst := by
  simp only [weighted_choice] at h
  split at h
  · exact absurd h (by simp)
  · rename_i total hL
    split at h
    · exact absurd h (by simp)
    · split at h
      · exact absurd h (by simp)
      · rename_i htot q r
        simp only [Option.some.injEq, Prod.mk.injEq] at h
        have hne : choices ≠ [] := by
          intro hc
          subst hc
          simp [cumWeights] at hL
        have hlen : 0 < (choices.map Prod.fst).length := by
          simpa [List.length_pos] using hne
        have hidx : bisectRight (cumWeights (choices.map Prod.snd))
            (Int.fract q * total) ((choices.map Prod.fst).length - 1) <
            (choices.map Prod.fst).length :=
          lt_of_le_of_lt (bisectRight_le _ _ _) (by omega)
        rw [List.getD_eq_getElem?_getD, List.getElem?_eq_getElem hidx] at h
        exact h.1 ▸ List.getElem_mem hidx

/-- With a non-empty mapping of positive total weight, `weighted_choice`
succeeds (consuming one draw) and returns one of the keys: the error branch
of the underlying `random.choices` is unreachable. -/
theorem weighted_choice_pos {choices : List (String × ℚ)} (hne : choices ≠ [])
    (hpos : 0 < (choices.map Prod.snd).sum) (q : ℚ) (rest : List ℚ) :
    ∃ k, k ∈ choices.map Prod.fst ∧
      weighted_choice choices (q :: rest) = some (k, rest) := by
  have hmapne : choices.map Prod.snd ≠ [] := by simpa using hne
  have hL := cumWeights_getLast? hmapne
  have hlen : 0 < (choices.map Prod.fst).length := by
    simpa [List.length_pos] using hne
  have hidx : bisectRight (cumWeights (choices.map Prod.snd))
      (Int.fract q * (choices.map Prod.snd).sum)
      ((choices.map Prod.fst).length - 1) < (choices.map Prod.fst).length :=
    lt_of_le_of_lt (bisectRight_le _ _ _) (by omega)
  refine ⟨(choices.map Prod.fst).getD
      (bisectRight (cumWeights (choices.map Prod.snd))
        (Int.fract q * (choices.map Prod.snd).sum)
        ((choices.map Prod.fst).length - 1)) "", ?_, ?_⟩
  · rw [List.getD_eq_getElem?_getD, List.getElem?_eq_getElem hidx]
    exact List.getElem_mem hidx
  · simp only [weighted_choice, hL, if_neg (not_le.2 hpos)]

/-- Inversion for `maybe_user_id`. -/
theorem maybe_user_id_eq_some {p : ℚ} {log0 log : Log} {t rest : List ℚ}
    (h : maybe_user_id p log0 t = some (log, rest)) :
    ∃ ext, log = log0 ++ ext ∧ userIdExt ext := by
  simp only [maybe_user_id] at h
  split at h
  · exact absurd h (by simp)
  · rename_i r t1 hrr
    split at h
    · split at h
      · exact absurd h (by simp)
      · rename_i uid t2 hu
        simp only [Option.some.injEq, Prod.mk.injEq] at h
        obtain ⟨hu1, hu2⟩ := randint_eq_some (by norm_num) hu
        exact ⟨_, h.1.symm, Or.inr ⟨uid, hu1, hu2, rfl⟩⟩
    · simp only [Option.some.injEq, Prod.mk.injEq] at h
      exact ⟨[], by simp [← h.1], Or.inl rfl⟩

/-- Inversion for `maybe_ip_address`. -/
theorem maybe_ip_address_eq_some {service : String} {log0 log : Log}
    {t rest : List ℚ} (h : maybe_ip_address service log0 t = some (log, rest)) :
    ∃ ext, log = log0 ++ ext ∧ ipExt service ext := by
  simp only [maybe_ip_address] at h
  split at h
  · exact absurd h (by simp)
  · rename_i r t1 hrr
    split at h
    · rename_i hcond
      split at h
      · exact absurd h (by simp)
      · rename_i o3 t2 h3
        split at h
        · exact absurd h (by simp)
        · rename_i o4 t3 h4
          simp only [Option.some.injEq, Prod.mk.injEq] at h
          obtain ⟨h3a, h3b⟩ := randint_eq_some (by norm_num) h3
          obtain ⟨h4a, h4b⟩ := randint_eq_some (by norm_num) h4
          exact ⟨_, h.1.symm,
            Or.inr ⟨hcond.2, o3, o4, h3a, h3b, h4a, h4b, rfl⟩⟩
    · simp only [Option.some.injEq, Prod.mk.injEq] at h
      exact ⟨[], by simp [← h.1], Or.inl rfl⟩

/-- Inversion for `maybe_amount`. -/
theorem maybe_amount_eq_some {service : String} {log0 log : Log}
    {t rest : List ℚ} (h : maybe_amount service log0 t = some (log, rest)) :
    ∃ ext, log = log0 ++ ext ∧ amountExt service ext := by
  simp only [maybe_amount] at h
  split at h
  · exact absurd h (by simp)
  · rename_i r t1 hrr
    split at h
    · rename_i hcond
      split at h
      · exact absurd h (by simp)
      · rename_i x t2 hx
        simp only [Option.some.injEq, Prod.mk.injEq] at h
        obtain ⟨hxa, hxb⟩ := random_uniform_eq_some (by norm_num) hx
        exact ⟨_, h.1.symm, Or.inr ⟨hcond.2, x, hxa, hxb, rfl⟩⟩
    · simp only [Option.some.injEq, Prod.mk.injEq] at h
      exact ⟨[], by simp [← h.1], Or.inl rfl⟩

/-- Inversion for `maybe_duration`. -/
theorem maybe_duration_eq_some {log0 log : Log} {t rest : List ℚ}
    (h : maybe_duration log0 t = some (log, rest)) :
    ∃ ext, log = log0 ++ ext ∧ durationExt ext := by
  simp only [maybe_duration] at h
  split at h
  · exact absurd h (by simp)
  · rename_i r t1 hrr
    split at h
    · split at h
      · exact absurd h (by simp)
      · rename_i d t2 hd
        simp only [Option.some.injEq, Prod.mk.injEq] at h
        obtain ⟨hd1, hd2⟩ := randint_eq_some (by norm_num) hd
        exact ⟨_, h.1.symm, Or.inr ⟨d, hd1, hd2, rfl⟩⟩
    · simp only [Option.some.injEq, Prod.mk.injEq] at h
      exact ⟨[], by simp [← h.1], Or.inl rfl⟩

/-- Inversion for the INFO branch. -/
theorem info_branch_eq_some {service : String} {log0 log : Log} {t rest : List ℚ}
    (h : info_branch service log0 t = some (log, rest)) :
    ∃ msg dur code ext1 ext2 ext3,
      msg ∈ INFO_MESSAGES ∧ 10 ≤ dur ∧ dur ≤ 500 ∧ code ∈ STATUS_CODES "INFO" ∧
      userIdExt ext1 ∧ ipExt service ext2 ∧ amountExt service ext3 ∧
      log = log0 ++ [("message", .str msg), ("duration_ms", .int dur),
        ("status_code", .int code)] ++ ext1 ++ ext2 ++ ext3 := by
  simp only [info_branch] at h
  split at h
  · exact absurd h (by simp)
  · rename_i msg t1 hm
    split at h
    · exact absurd h (by simp)
    · rename_i dur t2 hd
      split at h
      · exact absurd h (by simp)
      · rename_i code t3 hc
        split at h
        · exact absurd h (by simp)
        · rename_i log1 t4 h1
          split at h
          · exact absurd h (by simp)
          · rename_i log2 t5 h2
            obtain ⟨ext1, he1, hu⟩ := maybe_user_id_eq_some h1
            obtain ⟨ext2, he2, hip⟩ := maybe_ip_address_eq_some h2
            obtain ⟨ext3, he3, ha⟩ := maybe_amount_eq_some h
            obtain ⟨hda, hdb⟩ := randint_eq_some (by norm_num) hd
            refine ⟨msg, dur, code, ext1, ext2, ext3, random_choice_eq_some hm,
              hda, hdb, random_choice_eq_some hc, hu, hip, ha, ?_⟩
            subst he3 he2 he1
            simp [List.append_assoc]

/-- Inversion for the WARN branch. -/
theorem warn_branch_eq_some {log0 log : Log} {t rest : List ℚ}
    (h : warn_branch log0 t = some (log, rest)) :
    ∃ msg code ext1 ext2,
      msg ∈ WARN_MESSAGES ∧ code ∈ STATUS_CODES "WARN" ∧
      durationExt ext1 ∧ userIdExt ext2 ∧
      log = log0 ++ [("message", .str msg),
        ("status_code", .int code)] ++ ext1 ++ ext2 := by
  simp only [warn_branch] at h
  split at h
  · exact absurd h (by simp)
  · rename_i msg t1 hm
    split at h
    · exact absurd h (by simp)
    · rename_i code t2 hc
      split at h
      · exact absurd h (by simp)
      · rename_i log1 t3 h1
        obtain ⟨ext1, he1, hdur⟩ := maybe_duration_eq_some h1
        obtain ⟨ext2, he2, hu⟩ := maybe_user_id_eq_some h
        refine ⟨msg, code, ext1, ext2, random_choice_eq_some hm,
          random_choice_eq_some hc, hdur, hu, ?_⟩
        subst he2 he1
        simp [List.append_assoc]

/-- Inversion for the ERROR branch. -/
theorem error_branch_eq_some {log0 log : Log} {t rest : List ℚ}
    (h : error_branch log0 t = some (log, rest)) :
    ∃ msg etype code dur,
      (msg, etype) ∈ ERROR_MESSAGES ∧ code ∈ STATUS_CODES "ERROR" ∧
      1000 ≤ dur ∧ dur ≤ 10000 ∧
      log = log0 ++ [("message", .str msg), ("error", .str etype),
        ("status_code", .int code), ("duration_ms", .int dur)] := by
  simp only [error_branch] at h
  split at h
  · exact absurd h (by simp)
  · rename_i msg etype t1 hme
    split at h
    · exact absurd h (by simp)
    · rename_i code t2 hc
      split at h
      · exact absurd h (by simp)
      · rename_i dur t3 hd
        simp only [Option.some.injEq, Prod.mk.injEq] at h
        obtain ⟨hda, hdb⟩ := randint_eq_some (by norm_num) hd
        exact ⟨msg, etype, code, dur, random_choice_eq_some hme,
          random_choice_eq_some hc, hda, hdb, h.1.symm⟩

/-- Master inversion for `generate_log_event`: every produced record comes
from the base dict extended by exactly one of the three level branches. -/
theorem generate_log_event_eq_some {now : String} {t rest : List ℚ} {log : Log}
    (h : generate_log_event now t = some (log, rest)) :
    ∃ level service host hex t4,
      service ∈ SERVICES ∧ host ∈ HOSTS service ∧
      hex.length = 8 ∧ (∀ c ∈ hex.data, c ∈ hexDigitChars) ∧
      ((level = "INFO" ∧
          info_branch service (baseLog now level service host hex) t4 =
            some (log, rest)) ∨
       (level = "WARN" ∧
          warn_branch (baseLog now level service host hex) t4 =
            some (log, rest)) ∨
       (level = "ERROR" ∧
          error_branch (baseLog now level service host hex) t4 =
            some (log, rest))) := by
  simp only [generate_log_event] at h
  split at h
  · exact absurd h (by simp)
  · rename_i level t1 hw
    split at h
    · exact absurd h (by simp)
    · rename_i service t2 hs
      split at h
      · exact absurd h (by simp)
      · rename_i host t3 hh
        split at h
        · exact absurd h (by simp)
        · rename_i hex t4 hx
          have hlv : level = "INFO" ∨ level = "WARN" ∨ level = "ERROR" := by
            simpa [LOG_LEVELS] using weighted_choice_eq_some hw
          obtain ⟨hlen8, hhex⟩ := randbytes4_hex_eq_some hx
          refine ⟨level, service, host, hex, t4, random_choice_eq_some hs,
            random_choice_eq_some hh, hlen8, hhex, ?_⟩
          by_cases hI : level = "INFO"
          · rw [if_pos hI] at h
            exact Or.inl ⟨hI, h⟩
          · rw [if_neg hI] at h
            by_cases hW : level = "WARN"
            · rw [if_pos hW] at h
              exact Or.inr (Or.inl ⟨hW, h⟩)
            · rw [if_neg hW] at h
              have hE : level = "ERROR" := by tauto
              exact Or.inr (Or.inr ⟨hE, h⟩)

/-! ### The branches are parametric in the record built so far -/

/-- `maybe_user_id` only appends, so it commutes with consing an entry onto
the record. -/
theorem maybe_user_id_cons (p : ℚ) (x : String × JValue) (l : Log) (t : List ℚ) :
    maybe_user_id p (x :: l) t =
      Option.map (fun s => (x :: s.1, s.2)) (maybe_user_id p l t) := by
  cases t with
  | nil => rfl
  | cons q r =>
    by_cases hr : Int.fract q < p
    · cases r with
      | nil => simp [maybe_user_id, random_random, randint, hr]
      | cons q2 r2 => simp [maybe_user_id, random_random, randint, hr]
    · simp [maybe_user_id, random_random, hr]

/-- `maybe_ip_address` only appends. -/
theorem maybe_ip_address_cons (service : String) (x : String × JValue)
    (l : Log) (t : List ℚ) :
    maybe_ip_address service (x :: l) t =
      Option.map (fun s => (x :: s.1, s.2)) (maybe_ip_address service l t) := by
  cases t with
  | nil => rfl
  | cons q r =>
    by_cases hc : Int.fract q < 0.5 ∧ service = "web-api"
    · cases r with
      | nil => simp [maybe_ip_address, random_random, randint, hc]
      | cons q2 r2 =>
        cases r2 with
        | nil => simp [maybe_ip_address, random_random, randint, hc]
        | cons q3 r3 => simp [maybe_ip_address, random_random, randint, hc]
    · simp [maybe_ip_address, random_random, hc]

/-- `maybe_amount` only appends. -/
theorem maybe_amount_cons (service : String) (x : String × JValue)
    (l : Log) (t : List ℚ) :
    maybe_amount service (x :: l) t =
      Option.map (fun s => (x :: s.1, s.2)) (maybe_amount service l t) := by
  cases t with
  | nil => rfl
  | cons q r =>
    by_cases hc : Int.fract q < 0.3 ∧ service = "payment-service"
    · cases r with
      | nil => simp [maybe_amount, random_random, random_uniform, hc]
      | cons q2 r2 => simp [maybe_amount, random_random, random_uniform, hc]
    · simp [maybe_amount, random_random, hc]

/-- `maybe_duration` only appends. -/
theorem maybe_duration_cons (x : String × JValue) (l : Log) (t : List ℚ) :
    maybe_duration (x :: l) t =
      Option.map (fun s => (x :: s.1, s.2)) (maybe_duration l t) := by
  cases t with
  | nil => rfl
  | cons q r =>
    by_cases hr : Int.fract q < 0.5
    · cases r with
      | nil => simp [maybe_duration, random_random, randint, hr]
      | cons q2 r2 => simp [maybe_duration, random_random, randint, hr]
    · simp [maybe_duration, random_random, hr]

/-- The INFO branch only appends. -/
theorem info_branch_cons (service : String) (x : String × JValue) (l : Log)
    (t : List ℚ) :
    info_branch service (x :: l) t =
      Option.map (fun s => (x :: s.1, s.2)) (info_branch service l t) := by
  simp only [info_branch]
  cases h1 : random_choice INFO_MESSAGES t with
  | none => rfl
  | some v1 =>
    obtain ⟨msg, t1⟩ := v1
    dsimp only
    cases h2 : randint 10 500 t1 with
    | none => rfl
    | some v2 =>
      obtain ⟨dur, t2⟩ := v2
      dsimp only
      cases h3 : random_choice (STATUS_CODES "INFO") t2 with
      | none => rfl
      | some v3 =>
        obtain ⟨code, t3⟩ := v3
        dsimp only
        rw [show ((x :: l) ++ [("message", JValue.str msg),
              ("duration_ms", JValue.int dur), ("status_code", JValue.int code)]) =
            x :: (l ++ [("message", JValue.str msg), ("duration_ms", JValue.int dur),
              ("status_code", JValue.int code)]) from rfl]
        rw [maybe_user_id_cons]
        cases h4 : maybe_user_id 0.7 (l ++ [("message", JValue.str msg),
            ("duration_ms", JValue.int dur), ("status_code", JValue.int code)]) t3 with
        | none => rfl
        | some v4 =>
          obtain ⟨log1, t4⟩ := v4
          simp only [Option.map_some']
          rw [maybe_ip_address_cons]
          cases h5 : maybe_ip_address service log1 t4 with
          | none => rfl
          | some v5 =>
            obtain ⟨log2, t5⟩ := v5
            simp only [Option.map_some']
            rw [maybe_amount_cons]

/-- The WARN branch only appends. -/
theorem warn_branch_cons (x : String × JValue) (l : Log) (t : List ℚ) :
    warn_branch (x :: l) t =
      Option.map (fun s => (x :: s.1, s.2)) (warn_branch l t) := by
  simp only [warn_branch]
  cases h1 : random_choice WARN_MESSAGES t with
  | none => rfl
  | some v1 =>
    obtain ⟨msg, t1⟩ := v1
    dsimp only
    cases h2 : random_choice (STATUS_CODES "WARN") t1 with
    | none => rfl
    | some v2 =>
      obtain ⟨code, t2⟩ := v2
      dsimp only
      rw [show ((x :: l) ++ [("message", JValue.str msg),
            ("status_code", JValue.int code)]) =
          x :: (l ++ [("message", JValue.str msg),
            ("status_code", JValue.int code)]) from rfl]
      rw [maybe_duration_cons]
      cases h3 : maybe_duration (l ++ [("message", JValue.str msg),
          ("status_code", JValue.int code)]) t2 with
      | none => rfl
      | some v3 =>
        obtain ⟨log1, t3⟩ := v3
        simp only [Option.map_some']
        rw [maybe_user_id_cons]

/-- The ERROR branch only appends. -/
theorem error_branch_cons (x : String × JValue) (l : Log) (t : List ℚ) :
    error_branch (x :: l) t =
      Option.map (fun s => (x :: s.1, s.2)) (error_branch l t) := by
  simp only [error_branch]
  cases h1 : random_choice ERROR_MESSAGES t with
  | none => rfl
  | some v1 =>
    obtain ⟨⟨msg, etype⟩, t1⟩ := v1
    dsimp only
    cases h2 : random_choice (STATUS_CODES "ERROR") t1 with
    | none => rfl
    | some v2 =>
      obtain ⟨code, t2⟩ := v2
      dsimp only
      cases h3 : randint 1000 10000 t2 with
      | none => rfl
      | some v3 =>
        obtain ⟨dur, t3⟩ := v3
        rfl

/-- Dropping a timestamp entry from the front of a record. -/
theorem withoutTimestamp_timestamp_cons (v : JValue) (l : Log) :
    withoutTimestamp (("timestamp", v) :: l) = withoutTimestamp l := by
  simp [withoutTimestamp]

/-- C3 (amended): with the `timestamp` field removed, the record returned by
`generate_log_event` is a deterministic function of the random draws alone —
the wall-clock reading `now` influences nothing but the timestamp entry, so
two invocations seeing the same draws agree on every other byte of the
serialized record. -/
theorem generate_log_event_timestamp_independent (now1 now2 : String)
    (t : List ℚ) :
    Option.map (fun s => (withoutTimestamp s.1, s.2))
        (generate_log_event now1 t) =
      Option.map (fun s => (withoutTimestamp s.1, s.2))
        (generate_log_event now2 t) := by
  simp only [generate_log_event]
  cases h1 : weighted_choice LOG_LEVELS t with
  | none => rfl
  | some v1 =>
    obtain ⟨level, t1⟩ := v1
    dsimp only
    cases h2 : random_choice SERVICES t1 with
    | none => rfl
    | some v2 =>
      obtain ⟨service, t2⟩ := v2
      dsimp only
      cases h3 : random_choice (HOSTS service) t2 with
      | none => rfl
      | some v3 =>
        obtain ⟨host, t3⟩ := v3
        dsimp only
        cases h4 : randbytes4_hex t3 with
        | none => rfl
        | some v4 =>
          obtain ⟨hex, t4⟩ := v4
          dsimp only
          have hsplit : ∀ now : String, baseLog now level service host hex =
              ("timestamp", JValue.str now) ::
              [("level", JValue.str level), ("service", JValue.str service),
               ("host", JValue.str host),
               ("request_id", JValue.str ("req-" ++ hex))] := fun _ => rfl
          by_cases hI : level = "INFO"
          · rw [if_pos hI, if_pos hI]
            conv_lhs => rw [hsplit now1, info_branch_cons]
            conv_rhs => rw [hsplit now2, info_branch_cons]
            simp only [Option.map_map]
            exact congrFun (congrArg Option.map (funext fun p => by
              simp [Function.comp, withoutTimestamp_timestamp_cons])) _
          · rw [if_neg hI, if_neg hI]
            by_cases hW : level = "WARN"
            · rw [if_pos hW, if_pos hW]
              conv_lhs => rw [hsplit now1, warn_branch_cons]
              conv_rhs => rw [hsplit now2, warn_branch_cons]
              simp only [Option.map_map]
              exact congrFun (congrArg Option.map (funext fun p => by
                simp [Function.comp, withoutTimestamp_timestamp_cons])) _
            · rw [if_neg hW, if_neg hW]
              conv_lhs => rw [hsplit now1, error_branch_cons]
              conv_rhs => rw [hsplit now2, error_branch_cons]
              simp only [Option.map_map]
              exact congrFun (congrArg Option.map (funext fun p => by
                simp [Function.comp, withoutTimestamp_timestamp_cons])) _

/-! ### Reading octets back out of the generated address -/

/-- `splitOnDot` never returns the empty group list. -/
theorem splitOnDot_ne_nil (l : List Char) : splitOnDot l ≠ [] := by
  cases l with
  | nil => simp [splitOnDot]
  | cons c r =>
    simp only [splitOnDot]
    split
    · simp
    · split <;> simp

/-- A dot closes the current (empty) group. -/
theorem splitOnDot_dot (r : List Char) :
    splitOnDot ('.' :: r) = [] :: splitOnDot r := by
  simp [splitOnDot]

/-- A non-dot character extends the first group. -/
theorem splitOnDot_cons_ne (c : Char) (h : ¬c = '.') {r : List Char}
    {g : List Char} {gs : List (List Char)} (hr : splitOnDot r = g :: gs) :
    splitOnDot (c :: r) = (c :: g) :: gs := by
  simp [splitOnDot, h, hr]

/-- The first two octet groups of the generated address are `192` and
`168`, whatever the random tail is. -/
theorem octetsOf_ip (a b : ℤ) :
    ∃ tail, octetsOf ("192.168." ++ toString a ++ "." ++ toString b) =
      192 :: 168 :: tail := by
  have hdata : ("192.168." ++ toString a ++ "." ++ toString b).data =
      '1' :: '9' :: '2' :: '.' :: '1' :: '6' :: '8' :: '.' ::
        ((toString a).data ++ '.' :: (toString b).data) := by
    simp [String.data_append, List.append_assoc]
  set r := (toString a).data ++ '.' :: (toString b).data with hr
  obtain ⟨g, gs, hgs⟩ : ∃ g gs, splitOnDot r = g :: gs := by
    cases h : splitOnDot r with
    | nil => exact absurd h (splitOnDot_ne_nil r)
    | cons g gs => exact ⟨g, gs, rfl⟩
  have h8 : splitOnDot ('.' :: r) = [] :: g :: gs := by
    rw [splitOnDot_dot, hgs]
  have h7 := splitOnDot_cons_ne '8' (by decide) h8
  have h6 := splitOnDot_cons_ne '6' (by decide) h7
  have h5 := splitOnDot_cons_ne '1' (by decide) h6
  have h4 : splitOnDot ('.' :: '1' :: '6' :: '8' :: '.' :: r) =
      [] :: ['1', '6', '8'] :: g :: gs := by
    rw [splitOnDot_dot, h5]
  have h3 := splitOnDot_cons_ne '2' (by decide) h4
  have h2 := splitOnDot_cons_ne '9' (by decide) h3
  have h1 := splitOnDot_cons_ne '1' (by decide) h2
  refine ⟨(g :: gs).map parseDecimal, ?_⟩
  rw [octetsOf, hdata, h1]
  have p192 : parseDecimal ['1', '9', '2'] = 192 := by decide
  have p168 : parseDecimal ['1', '6', '8'] = 168 := by decide
  simp [p192, p168]

/-! ### What a record carrying `ip_address` looks like -/

/-- Any record produced with an `ip_address` entry is an INFO `web-api`
record whose address is `192.168.a.b`, `a, b ∈ [1, 255]`. -/
theorem ip_lookup_shape {now : String} {t rest : List ℚ} {log : Log}
    (h : generate_log_event now t = some (log, rest)) {v : JValue}
    (hip : log.lookup "ip_address" = some v) :
    ∃ s : String, v = .str s ∧ ipAddressOk log s := by
  obtain ⟨level, service, host, hex, t4, hs, hh, hlen, hhex, hbr⟩ :=
    generate_log_event_eq_some h
  rcases hbr with ⟨hl, hb⟩ | ⟨hl, hb⟩ | ⟨hl, hb⟩
  · subst hl
    obtain ⟨msg, dur, code, ext1, ext2, ext3, hm, hd1, hd2, hc, hu, hipx, ha, hlog⟩ :=
      info_branch_eq_some hb
    subst hlog
    rcases hipx with rfl | ⟨hsvc, a, b, ha1, ha2, hb1, hb2, rfl⟩
    · rcases hu with rfl | ⟨n, _, _, rfl⟩ <;>
        rcases ha with rfl | ⟨hsvc2, x, _, _, rfl⟩ <;>
          simp [baseLog, List.lookup] at hip
    · subst hsvc
      rcases hu with rfl | ⟨n, _, _, rfl⟩ <;>
        rcases ha with rfl | ⟨hsvc2, x, _, _, rfl⟩
      · simp only [baseLog, List.lookup, ipAddressOk] at hip ⊢
        simp at hip
        exact ⟨_, hip.symm, by simp [List.lookup], by simp [List.lookup],
          a, b, ha1, ha2, hb1, hb2, rfl⟩
      · exact absurd hsvc2 (by decide)
      · simp only [baseLog, List.lookup, ipAddressOk] at hip ⊢
        simp at hip
        exact ⟨_, hip.symm, by simp [List.lookup], by simp [List.lookup],
          a, b, ha1, ha2, hb1, hb2, rfl⟩
      · exact absurd hsvc2 (by decide)
  · subst hl
    obtain ⟨msg, code, ext1, ext2, hm, hc, hdur, hu, hlog⟩ :=
      warn_branch_eq_some hb
    subst hlog
    rcases hdur with rfl | ⟨d, _, _, rfl⟩ <;>
      rcases hu with rfl | ⟨n, _, _, rfl⟩ <;>
        simp [baseLog, List.lookup] at hip
  · subst hl
    obtain ⟨msg, etype, code, dur, hme, hc, hd1, hd2, hlog⟩ :=
      error_branch_eq_some hb
    subst hlog
    simp [baseLog, List.lookup] at hip

/-! ### Rounding bounds for the amount field -/

/-- Rounding a rational in `[9.99, 999.99)` to two decimals stays inside
`[9.99, 999.99]`, and the result has at most two decimal places. -/
theorem round2_bounds {x : ℚ} (h1 : 9.99 ≤ x) (h2 : x < 999.99) :
    9.99 ≤ round2 x ∧ round2 x ≤ 999.99 ∧ ∃ n : ℤ, round2 x = n / 100 := by
  have hlow : (999 : ℤ) ≤ round (100 * x) := by
    rw [round_eq, Int.le_floor]
    push_cast
    linarith
  have hhigh : round (100 * x) ≤ 99999 := by
    have : round (100 * x) < 100000 := by
      rw [round_eq, Int.floor_lt]
      push_cast
      linarith
    omega
  have hlow' : (999 : ℚ) ≤ (round (100 * x) : ℚ) := by exact_mod_cast hlow
  have hhigh' : ((round (100 * x) : ℤ) : ℚ) ≤ 99999 := by exact_mod_cast hhigh
  refine ⟨?_, ?_, round (100 * x), rfl⟩
  · rw [round2, le_div_iff₀ (by norm_num : (0 : ℚ) < 100)]
    linarith [hlow']
  · rw [round2, div_le_iff₀ (by norm_num : (0 : ℚ) < 100)]
    linarith [hhigh']

/-! ### The error catalog pairs each message with a single error type -/

/-- The 8-entry `(message, error_type)` catalog is functional in the
message. -/
theorem ERROR_MESSAGES_functional :
    ∀ p ∈ ERROR_MESSAGES, ∀ q ∈ ERROR_MESSAGES, p.1 = q.1 → p.2 = q.2 := by
  decide

/-! ### The specified properties -/

/-- C1: every record returned by `generate_log_event` contains the seven base
fields `timestamp`, `level`, `service`, `host`, `request_id`, `message`,
`status_code`, each present (and, the record storing no nulls, non-null),
regardless of which level branch was taken. -/
theorem generate_log_event_base_fields {now : String} {t rest : List ℚ}
    {log : Log} (h : generate_log_event now t = some (log, rest)) :
    baseFieldsPresent log := by
  obtain ⟨level, service, host, hex, t4, hs, hh, hlen, hhex, hbr⟩ :=
    generate_log_event_eq_some h
  rcases hbr with ⟨hl, hb⟩ | ⟨hl, hb⟩ | ⟨hl, hb⟩
  · obtain ⟨msg, dur, code, ext1, ext2, ext3, _, _, _, _, hu, hip, ha, hlog⟩ :=
      info_branch_eq_some hb
    subst hlog
    rcases hu with rfl | ⟨n, -, -, rfl⟩ <;>
      rcases hip with rfl | ⟨hsvc, a, b, -, -, -, -, rfl⟩ <;>
        rcases ha with rfl | ⟨hsvc2, x, -, -, rfl⟩ <;>
          simp [baseFieldsPresent, baseLog, List.lookup]
  · obtain ⟨msg, code, ext1, ext2, -, -, hdur, hu, hlog⟩ :=
      warn_branch_eq_some hb
    subst hlog
    rcases hdur with rfl | ⟨d, -, -, rfl⟩ <;>
      rcases hu with rfl | ⟨n, -, -, rfl⟩ <;>
        simp [baseFieldsPresent, baseLog, List.lookup]
  · obtain ⟨msg, etype, code, dur, -, -, -, -, hlog⟩ := error_branch_eq_some hb
    subst hlog
    simp [baseFieldsPresent, baseLog, List.lookup]

/-- C1 witness: a concrete run of the generator, with the seven base fields
present in its record. -/
theorem generate_log_event_base_fields_witness :
    generate_log_event "T" tapeInfo = some (logInfo, []) ∧
      baseFieldsPresent logInfo :=
  ⟨by with_unfolding_all rfl,
   @generate_log_event_base_fields "T" tapeInfo [] logInfo
     (by with_unfolding_all rfl)⟩

/-- C2 counterexample: it is false that, in every record carrying
`ip_address`, the address consists of 4 octets each drawn (uniformly) from
`[1, 255]` — reading a drawn octet as one whose position can attain every
value of `[1, 255]` over some draw sequence.  The first octet is the
constant `192`, so it never attains the value `1`. -/
theorem generate_log_event_ip_octets_not_uniform :
    ¬ ((∀ (now : String) (t rest : List ℚ) (log : Log) (s : String),
          generate_log_event now t = some (log, rest) →
          log.lookup "ip_address" = some (.str s) →
          log.lookup "level" = some (.str "INFO") ∧
          log.lookup "service" = some (.str "web-api") ∧
          (octetsOf s).length = 4 ∧ ∀ o ∈ octetsOf s, 1 ≤ o ∧ o ≤ 255) ∧
        (∀ i, i < 4 → ∀ v : ℕ, 1 ≤ v → v ≤ 255 →
          ∃ (now : String) (t rest : List ℚ) (log : Log) (s : String),
            generate_log_event now t = some (log, rest) ∧
            log.lookup "ip_address" = some (.str s) ∧
            (octetsOf s).get? i = some v)) := by
  rintro ⟨-, hB⟩
  obtain ⟨now, t, rest, log, s, hgen, hip, hoct⟩ :=
    hB 0 (by norm_num) 1 (le_refl 1) (by norm_num)
  obtain ⟨s2, hv, hok⟩ := ip_lookup_shape hgen hip
  have hs : s = s2 := by injection hv
  obtain ⟨-, -, a, b, -, -, -, -, hs2⟩ := hok
  obtain ⟨tail, htail⟩ := octetsOf_ip a b
  rw [hs, hs2, htail] at hoct
  simp at hoct

/-- C2 (amended): in every generated record carrying `ip_address`, the level
is INFO, the service is `web-api`, and the address is `192.168.a.b` — the
first two octets are the constants 192 and 168, and only the last two are
drawn from `[1, 255]`. -/
theorem generate_log_event_ip_address_shape {now : String} {t rest : List ℚ}
    {log : Log} {s : String} (h : generate_log_event now t = some (log, rest))
    (hip : log.lookup "ip_address" = some (.str s)) : ipAddressOk log s := by
  obtain ⟨s2, hv, hok⟩ := ip_lookup_shape h hip
  have hs : s = s2 := by injection hv
  subst hs
  exact hok

/-- C2 witness: a concrete run carrying `ip_address`. -/
theorem generate_log_event_ip_address_shape_witness :
    generate_log_event "T" tapeInfo = some (logInfo, []) ∧
      logInfo.lookup "ip_address" = some (.str "192.168.1.1") ∧
      ipAddressOk logInfo "192.168.1.1" :=
  ⟨by with_unfolding_all rfl, rfl,
   @generate_log_event_ip_address_shape "T" tapeInfo [] logInfo "192.168.1.1"
     (by with_unfolding_all rfl) rfl⟩

/-- C3 counterexample: two invocations in which the random source returns
the same sequence of draws but the wall clock differs produce records that
are not byte-identical — the record is not a function of the draws alone,
since `timestamp` comes from the clock. -/
theorem generate_log_event_clock_dependent :
    generate_log_event "T" tapeInfo ≠ generate_log_event "U" tapeInfo := by
  have h1 : generate_log_event "T" tapeInfo = some (logInfo, []) := by
    with_unfolding_all rfl
  have h2 : generate_log_event "U" tapeInfo =
      some (("timestamp", JValue.str "U") :: logInfo.tail, []) := by
    with_unfolding_all rfl
  rw [h1, h2]
  decide

/-- C4: every generated record with level ERROR carries an `error` field
whose value is the error type paired with the record's `message` in the
fixed 8-entry catalog (the pairing being functional in the message), and
never carries `user_id`, `ip_address` or `amount`. -/
theorem generate_log_event_error_fields {now : String} {t rest : List ℚ}
    {log : Log} (h : generate_log_event now t = some (log, rest))
    (hlv : log.lookup "level" = some (.str "ERROR")) : errorFieldsOk log := by
  obtain ⟨level, service, host, hex, t4, hs, hh, hlen, hhex, hbr⟩ :=
    generate_log_event_eq_some h
  rcases hbr with ⟨hl, hb⟩ | ⟨hl, hb⟩ | ⟨hl, hb⟩
  · subst hl
    obtain ⟨msg, dur, code, ext1, ext2, ext3, -, -, -, -, hu, hip, ha, hlog⟩ :=
      info_branch_eq_some hb
    subst hlog
    simp [baseLog, List.lookup] at hlv
  · subst hl
    obtain ⟨msg, code, ext1, ext2, -, -, hdur, hu, hlog⟩ :=
      warn_branch_eq_some hb
    subst hlog
    simp [baseLog, List.lookup] at hlv
  · subst hl
    obtain ⟨msg, etype, code, dur, hme, -, -, -, hlog⟩ :=
      error_branch_eq_some hb
    subst hlog
    refine ⟨msg, etype, ?_, ?_, hme,
      fun e he => ERROR_MESSAGES_functional (msg, e) he (msg, etype) hme rfl,
      ?_, ?_, ?_⟩ <;>
      simp [errorFieldsOk, baseLog, List.lookup]

/-- C4 witness: a concrete ERROR record. -/
theorem generate_log_event_error_fields_witness :
    generate_log_event "T" tapeError = some (logError, []) ∧
      logError.lookup "level" = some (.str "ERROR") ∧ errorFieldsOk logError :=
  ⟨by with_unfolding_all rfl, rfl,
   @generate_log_event_error_fields "T" tapeError [] logError
     (by with_unfolding_all rfl) rfl⟩

/-- C5: in every generated record, the `host` field is an element of the
fixed host list of that record's own `service` field, never a host of
another service only. -/
theorem generate_log_event_host_matches_service {now : String}
    {t rest : List ℚ} {log : Log}
    (h : generate_log_event now t = some (log, rest)) :
    hostMatchesService log := by
  obtain ⟨level, service, host, hex, t4, hs, hh, hlen, hhex, hbr⟩ :=
    generate_log_event_eq_some h
  rcases hbr with ⟨hl, hb⟩ | ⟨hl, hb⟩ | ⟨hl, hb⟩
  · obtain ⟨msg, dur, code, ext1, ext2, ext3, -, -, -, -, hu, hip, ha, hlog⟩ :=
      info_branch_eq_some hb
    subst hlog
    exact ⟨service, host, by simp [baseLog, List.lookup],
      by simp [baseLog, List.lookup], hh⟩
  · obtain ⟨msg, code, ext1, ext2, -, -, hdur, hu, hlog⟩ :=
      warn_branch_eq_some hb
    subst hlog
    exact ⟨service, host, by simp [baseLog, List.lookup],
      by simp [baseLog, List.lookup], hh⟩
  · obtain ⟨msg, etype, code, dur, -, -, -, -, hlog⟩ :=
      error_branch_eq_some hb
    subst hlog
    exact ⟨service, host, by simp [baseLog, List.lookup],
      by simp [baseLog, List.lookup], hh⟩

/-- C5 witness: a concrete record whose host belongs to its service's
list. -/
theorem generate_log_event_host_matches_service_witness :
    generate_log_event "T" tapeInfo = some (logInfo, []) ∧
      hostMatchesService logInfo :=
  ⟨by with_unfolding_all rfl,
   @generate_log_event_host_matches_service "T" tapeInfo [] logInfo
     (by with_unfolding_all rfl)⟩

/-- C6: in every generated record, `request_id` matches
`req-[0-9a-f]{8}`: the literal prefix `req-` followed by exactly 8
lowercase hexadecimal characters. -/
theorem generate_log_event_request_id_format {now : String}
    {t rest : List ℚ} {log : Log}
    (h : generate_log_event now t = some (log, rest)) : requestIdOk log := by
  obtain ⟨level, service, host, hex, t4, hs, hh, hlen, hhex, hbr⟩ :=
    generate_log_event_eq_some h
  rcases hbr with ⟨hl, hb⟩ | ⟨hl, hb⟩ | ⟨hl, hb⟩
  · obtain ⟨msg, dur, code, ext1, ext2, ext3, -, -, -, -, hu, hip, ha, hlog⟩ :=
      info_branch_eq_some hb
    subst hlog
    exact ⟨hex, by simp [baseLog, List.lookup], hlen, hhex⟩
  · obtain ⟨msg, code, ext1, ext2, -, -, hdur, hu, hlog⟩ :=
      warn_branch_eq_some hb
    subst hlog
    exact ⟨hex, by simp [baseLog, List.lookup], hlen, hhex⟩
  · obtain ⟨msg, etype, code, dur, -, -, -, -, hlog⟩ :=
      error_branch_eq_some hb
    subst hlog
    exact ⟨hex, by simp [baseLog, List.lookup], hlen, hhex⟩

/-- C6 witness: a concrete record with a well-formed request id. -/
theorem generate_log_event_request_id_format_witness :
    generate_log_event "T" tapeInfo = some (logInfo, []) ∧ requestIdOk logInfo :=
  ⟨by with_unfolding_all rfl,
   @generate_log_event_request_id_format "T" tapeInfo [] logInfo
     (by with_unfolding_all rfl)⟩

/-- C7: in every generated record, `status_code` and `duration_ms` respect
the level-specific catalogs and ranges: at INFO, status in {200,201,204}
and duration in [10,500]; at WARN, status in {200,402} and duration, when
present, in [500,2000]; at ERROR, status in {500,503,504,409} and duration
in [1000,10000]. -/
theorem generate_log_event_status_duration {now : String} {t rest : List ℚ}
    {log : Log} (h : generate_log_event now t = some (log, rest)) :
    statusDurationOk log := by
  obtain ⟨level, service, host, hex, t4, hs, hh, hlen, hhex, hbr⟩ :=
    generate_log_event_eq_some h
  rcases hbr with ⟨hl, hb⟩ | ⟨hl, hb⟩ | ⟨hl, hb⟩
  · subst hl
    obtain ⟨msg, dur, code, ext1, ext2, ext3, -, hd1, hd2, hc, hu, hip, ha, hlog⟩ :=
      info_branch_eq_some hb
    subst hlog
    refine ⟨fun _ => ⟨code, dur, ?_, ?_, ?_, hd1, hd2⟩, fun hW => ?_, fun hE => ?_⟩
    · simp [baseLog, List.lookup]
    · simpa [STATUS_CODES] using hc
    · simp [baseLog, List.lookup]
    · simp [baseLog, List.lookup] at hW
    · simp [baseLog, List.lookup] at hE
  · subst hl
    obtain ⟨msg, code, ext1, ext2, -, hc, hdur, hu, hlog⟩ :=
      warn_branch_eq_some hb
    subst hlog
    refine ⟨fun hI => ?_, fun _ => ⟨code, ?_, ?_, ?_⟩, fun hE => ?_⟩
    · simp [baseLog, List.lookup] at hI
    · simp [baseLog, List.lookup]
    · simpa [STATUS_CODES] using hc
    · intro dur hdlk
      rcases hdur with rfl | ⟨d, hda, hdb, rfl⟩
      · rcases hu with rfl | ⟨n, -, -, rfl⟩ <;>
          simp [baseLog, List.lookup] at hdlk
      · rcases hu with rfl | ⟨n, -, -, rfl⟩ <;>
          · simp [baseLog, List.lookup] at hdlk
            omega
    · simp [baseLog, List.lookup] at hE
  · subst hl
    obtain ⟨msg, etype, code, dur, -, hc, hd1, hd2, hlog⟩ :=
      error_branch_eq_some hb
    subst hlog
    refine ⟨fun hI => ?_, fun hW => ?_, fun _ => ⟨code, dur, ?_, ?_, ?_, hd1, hd2⟩⟩
    · simp [baseLog, List.lookup] at hI
    · simp [baseLog, List.lookup] at hW
    · simp [baseLog, List.lookup]
    · simpa [STATUS_CODES] using hc
    · simp [baseLog, List.lookup]

/-- C7 witness: a concrete INFO record with status 200 and duration 10. -/
theorem generate_log_event_status_duration_witness :
    generate_log_event "T" tapeInfo = some (logInfo, []) ∧
      statusDurationOk logInfo :=
  ⟨by with_unfolding_all rfl,
   @generate_log_event_status_duration "T" tapeInfo [] logInfo
     (by with_unfolding_all rfl)⟩

/-- C8: in every generated record carrying `amount`, the amount is a
rational in `[9.99, 999.99]` rounded to 2 decimal places (an integer
multiple of 1/100). -/
theorem generate_log_event_amount_range {now : String} {t rest : List ℚ}
    {log : Log} (h : generate_log_event now t = some (log, rest))
    {v : JValue} (hv : log.lookup "amount" = some v) : amountOk v := by
  obtain ⟨level, service, host, hex, t4, hs, hh, hlen, hhex, hbr⟩ :=
    generate_log_event_eq_some h
  rcases hbr with ⟨hl, hb⟩ | ⟨hl, hb⟩ | ⟨hl, hb⟩
  · subst hl
    obtain ⟨msg, dur, code, ext1, ext2, ext3, -, -, -, -, hu, hip, ha, hlog⟩ :=
      info_branch_eq_some hb
    subst hlog
    rcases ha with rfl | ⟨hsvc, x, hx1, hx2, rfl⟩
    · rcases hu with rfl | ⟨n, -, -, rfl⟩ <;>
        rcases hip with rfl | ⟨hsvc2, a, b, -, -, -, -, rfl⟩ <;>
          simp [baseLog, List.lookup] at hv
    · subst hsvc
      rcases hip with rfl | ⟨hsvc2, a, b, -, -, -, -, rfl⟩
      · obtain ⟨hlo, hhi, n, hn⟩ := round2_bounds hx1 hx2
        rcases hu with rfl | ⟨m, -, -, rfl⟩ <;>
          · simp [baseLog, List.lookup] at hv
            exact ⟨round2 x, hv.symm, hlo, hhi, n, hn⟩
      · exact absurd hsvc2 (by decide)
  · subst hl
    obtain ⟨msg, code, ext1, ext2, -, -, hdur, hu, hlog⟩ :=
      warn_branch_eq_some hb
    subst hlog
    rcases hdur with rfl | ⟨d, -, -, rfl⟩ <;>
      rcases hu with rfl | ⟨n, -, -, rfl⟩ <;>
        simp [baseLog, List.lookup] at hv
  · subst hl
    obtain ⟨msg, etype, code, dur, -, -, -, -, hlog⟩ :=
      error_branch_eq_some hb
    subst hlog
    simp [baseLog, List.lookup] at hv

/-- C8 witness: a concrete `payment-service` record carrying the amount
504.99. -/
theorem generate_log_event_amount_range_witness :
    generate_log_event "T" tapePay = some (logPay, []) ∧
      logPay.lookup "amount" = some (.rat (50499 / 100)) ∧
      amountOk (.rat (50499 / 100)) :=
  ⟨by with_unfolding_all rfl, rfl,
   @generate_log_event_amount_range "T" tapePay [] logPay
     (by with_unfolding_all rfl) (.rat (50499 / 100)) rfl⟩

/-- C9: every `(key, value)` pair handed to `producer.send` by the
`produce_logs` loop has the record's own `service` field as its key and the
record itself as its value. -/
theorem produce_logs_key_is_service {nows : ℕ → String} {count : ℕ}
    {t rest : List ℚ} {sends : List (String × Log)}
    (h : produce_logs nows count t = some (sends, rest)) :
    ∀ kv ∈ sends, kv.2.lookup "service" = some (.str kv.1) := by
  induction count generalizing nows t sends rest with
  | zero =>
    simp only [produce_logs, Option.some.injEq, Prod.mk.injEq] at h
    rw [← h.1]
    simp
  | succ n ih =>
    simp only [produce_logs] at h
    split at h
    · exact absurd h (by simp)
    · rename_i log t1 hg
      split at h
      · rename_i key hkey
        split at h
        · exact absurd h (by simp)
        · rename_i sends2 t2 hrec
          simp only [Option.some.injEq, Prod.mk.injEq] at h
          rw [← h.1]
          intro kv hkv
          rcases List.mem_cons.1 hkv with rfl | hmem
          · exact hkey
          · exact ih hrec kv hmem
      · exact absurd h (by simp)

/-- C9 witness: one concrete loop iteration sends the record keyed by its
service. -/
theorem produce_logs_key_is_service_witness :
    produce_logs (fun _ => "T") 1 tapeInfo = some ([("web-api", logInfo)], []) ∧
      ∀ kv ∈ [("web-api", logInfo)],
        kv.2.lookup "service" = some (.str kv.1) :=
  ⟨by with_unfolding_all rfl,
   @produce_logs_key_is_service (fun _ => "T") 1 tapeInfo [] [("web-api", logInfo)]
     (by with_unfolding_all rfl)⟩

/-- C10: for every non-empty outcome-to-weight mapping of positive total
weight, `weighted_choice` consumes one draw and returns one of the keys of
the mapping: the error branch of the underlying `random.choices` is
unreachable under that precondition. -/
theorem weighted_choice_returns_key (choices : List (String × ℚ)) (q : ℚ)
    (rest : List ℚ) (hne : choices ≠ [])
    (hpos : 0 < (choices.map Prod.snd).sum) :
    ∃ k, k ∈ choices.map Prod.fst ∧
      weighted_choice choices (q :: rest) = some (k, rest) :=
  weighted_choice_pos hne hpos q rest

/-- C10 witness: the level mapping is non-empty with total weight 1, and the
choice succeeds on it. -/
theorem weighted_choice_returns_key_witness :
    LOG_LEVELS ≠ [] ∧ 0 < (LOG_LEVELS.map Prod.snd).sum ∧
      ∃ k, k ∈ LOG_LEVELS.map Prod.fst ∧
        weighted_choice LOG_LEVELS [0] = some (k, []) :=
  ⟨by simp [LOG_LEVELS], by norm_num [LOG_LEVELS],
   weighted_choice_returns_key LOG_LEVELS 0 [] (by simp [LOG_LEVELS])
     (by norm_num [LOG_LEVELS])⟩
